import Mathlib

/-!
Verification of the QueueCTL job queue against its specification.

The Go sources are shallowly embedded: the jobs table is a list of rows in
insertion order, timestamps are integers (RFC3339 strings compare
chronologically, so integer seconds are a faithful order-preserving model),
SQL updates become row maps, and the backoff arithmetic models the float64
power as an exact rational power, the conversion to an integer duration as
truncation toward zero, and the int64 nanosecond multiplication by the
second unit with the two's-complement wraparound of Go int64 arithmetic.
-/

/-- One row of the `jobs` table (`src/job.go` struct `Job` together with the
columns of the schema in `src/unnamed/part_001` `initDB`). -/
structure Job where
  id : String
  command : String
  state : String
  attempts : Int
  maxRetries : Int
  createdAt : Int
  updatedAt : Int
  lastError : String
  nextRetryAt : Option Int
  lockedBy : Option String
  lockedAt : Option Int
deriving Repr, DecidableEq

/-- The jobs table, in insertion order. -/
abbrev Store := List Job

/- State constants from `src/job.go` lines 5-13.  Note that the three
terminal states are capitalized in the source. -/

def StatePending : String := "pending"

def StateProcessing : String := "processing"

def StateCompleted : String := "Completed"

def StateFailed : String := "Failed"

def StateDead : String := "Dead"

/-- Truncation of a rational toward zero: the semantics of the Go conversion
`time.Duration(delaySeconds)` applied to a float64 value. -/
def ratTrunc (q : ℚ) : Int :=
  if 0 ≤ q then ⌊q⌋ else ⌈q⌉

/-- Two's-complement wraparound of int64 arithmetic: the result of a Go
int64 operation whose exact value is `x`.  The numerals are 2 to the 63rd
and 2 to the 64th power. -/
def wrap64 (x : Int) : Int :=
  (x + 9223372036854775808) % 18446744073709551616 - 9223372036854775808

/-- `CalculateBackoffDelay` from `src/job.go` lines 221-227.  The float64
power is modelled as an exact rational power; the conversion to the int64
`time.Duration` truncates toward zero; the multiplication by `time.Second`
is an int64 multiplication by 10^9 and wraps.  The result is the duration
in nanoseconds, exactly as the Go value. -/
def CalculateBackoffDelay (attempts : Int) (baseDelay : ℚ) : Int :=
  let a := if attempts ≤ 0 then 1 else attempts
  wrap64 (ratTrunc (baseDelay ^ a.toNat) * 1000000000)

theorem ratTrunc_of_nonneg {q : ℚ} (h : 0 ≤ q) : ratTrunc q = ⌊q⌋ := by
  simp [ratTrunc, h]

theorem wrap64_eq_self {x : Int}
    (h1 : -9223372036854775808 ≤ x) (h2 : x < 9223372036854775808) :
    wrap64 x = x := by
  unfold wrap64
  have hm : (x + 9223372036854775808) % 18446744073709551616 =
      x + 9223372036854775808 :=
    Int.emod_eq_of_lt (by omega) (by omega)
  omega

theorem CalculateBackoffDelay_of_pos {attempts : Int} (baseDelay : ℚ)
    (h : 1 ≤ attempts) :
    CalculateBackoffDelay attempts baseDelay =
      wrap64 (ratTrunc (baseDelay ^ attempts.toNat) * 1000000000) := by
  have h' : ¬ attempts ≤ 0 := by omega
  simp [CalculateBackoffDelay, h']

/-- C6 counterexample: at attempt 34, base 2 the int64 nanosecond product
2^34 times 10^9 exceeds the int64 range and wraps negative, so the returned
delay is not floor(2^34) seconds — the universally quantified equality of
the claim is false of the program. -/
theorem CalculateBackoffDelay_overflow_counterexample :
    CalculateBackoffDelay 34 2 < 0 ∧
    ¬ (CalculateBackoffDelay 34 2 =
        ⌊((2 : ℚ)) ^ ((34 : Int)).toNat⌋ * 1000000000) := by
  decide

/-- C6 amended: for every attempt count at least 1 and every positive base
whose truncated power times 10^9 still fits in int64 (no wraparound), the
retry delay equals the floor of base to the power of the attempt count, in
seconds; in particular for base 2 the first three delays are 2, 4 and 8
seconds.  Beyond that range the int64 multiplication by the nanosecond unit
wraps. -/
theorem CalculateBackoffDelay_eq_floor_pow_in_range (attempts : Int) (base : ℚ)
    (hA : 1 ≤ attempts) (hB : 0 < base)
    (hR : ⌊base ^ attempts.toNat⌋ * 1000000000 < 9223372036854775808) :
    CalculateBackoffDelay attempts base = ⌊base ^ attempts.toNat⌋ * 1000000000 ∧
    CalculateBackoffDelay 1 2 = 2 * 1000000000 ∧
    CalculateBackoffDelay 2 2 = 4 * 1000000000 ∧
    CalculateBackoffDelay 3 2 = 8 * 1000000000 := by
  refine ⟨?_, by decide, by decide, by decide⟩
  rw [CalculateBackoffDelay_of_pos base hA]
  have hnn : (0 : ℚ) ≤ base ^ attempts.toNat := le_of_lt (pow_pos hB _)
  rw [ratTrunc_of_nonneg hnn]
  have hfl : 0 ≤ ⌊base ^ attempts.toNat⌋ := Int.floor_nonneg.mpr hnn
  exact wrap64_eq_self (by nlinarith) hR

theorem CalculateBackoffDelay_eq_floor_pow_in_range_witness :
    CalculateBackoffDelay 3 2 = ⌊((2 : ℚ)) ^ ((3 : Int)).toNat⌋ * 1000000000 ∧
    CalculateBackoffDelay 1 2 = 2 * 1000000000 := by
  have h := CalculateBackoffDelay_eq_floor_pow_in_range 3 2
    (by decide) (by norm_num) (by decide)
  exact ⟨h.1, h.2.1⟩

/-- C9 counterexample: with base 2 the delay for attempt 34 wraps negative
while the delay for attempt 33 is still a large positive duration, so the
backoff delay of the program is not non-decreasing over all attempt pairs. -/
theorem CalculateBackoffDelay_not_monotone_counterexample :
    ¬ (CalculateBackoffDelay 33 2 ≤ CalculateBackoffDelay 34 2) := by
  decide

/-- C9 amended: for every base at least 1, the backoff delay is
non-decreasing in the attempt count over attempts at least 1 as long as the
larger delay still fits in int64 nanoseconds (no wraparound); beyond that
the int64 multiplication wraps and monotonicity is lost. -/
theorem CalculateBackoffDelay_monotone_in_range (base : ℚ) (a1 a2 : Int)
    (hB : 1 ≤ base) (h1 : 1 ≤ a1) (h12 : a1 ≤ a2)
    (hR : ⌊base ^ a2.toNat⌋ * 1000000000 < 9223372036854775808) :
    CalculateBackoffDelay a1 base ≤ CalculateBackoffDelay a2 base := by
  have h2 : 1 ≤ a2 := le_trans h1 h12
  rw [CalculateBackoffDelay_of_pos base h1, CalculateBackoffDelay_of_pos base h2]
  have hb0 : (0 : ℚ) < base := lt_of_lt_of_le one_pos hB
  have hp1 : (0 : ℚ) ≤ base ^ a1.toNat := le_of_lt (pow_pos hb0 _)
  have hp2 : (0 : ℚ) ≤ base ^ a2.toNat := le_of_lt (pow_pos hb0 _)
  rw [ratTrunc_of_nonneg hp1, ratTrunc_of_nonneg hp2]
  have hfl : ⌊base ^ a1.toNat⌋ ≤ ⌊base ^ a2.toNat⌋ :=
    Int.floor_le_floor (pow_le_pow_right₀ hB (Int.toNat_le_toNat h12))
  have hn1 : 0 ≤ ⌊base ^ a1.toNat⌋ := Int.floor_nonneg.mpr hp1
  have hmul : ⌊base ^ a1.toNat⌋ * 1000000000 ≤ ⌊base ^ a2.toNat⌋ * 1000000000 :=
    mul_le_mul_of_nonneg_right hfl (by norm_num)
  rw [wrap64_eq_self (by nlinarith) (lt_of_le_of_lt hmul hR),
      wrap64_eq_self (by nlinarith) hR]
  exact hmul

theorem CalculateBackoffDelay_monotone_in_range_witness :
    CalculateBackoffDelay 2 2 ≤ CalculateBackoffDelay 5 2 :=
  CalculateBackoffDelay_monotone_in_range 2 2 5
    (by norm_num) (by decide) (by decide) (by decide)

/-- C10: every non-positive attempt count is clamped to 1, so the delay for a
non-positive attempt count equals the first-retry delay, for every base. -/
theorem CalculateBackoffDelay_clamps_nonpositive (attempts : Int) (base : ℚ)
    (h : attempts ≤ 0) :
    CalculateBackoffDelay attempts base = CalculateBackoffDelay 1 base := by
  simp [CalculateBackoffDelay, h]

theorem CalculateBackoffDelay_clamps_nonpositive_witness :
    CalculateBackoffDelay (-3) 2 = CalculateBackoffDelay 1 2 :=
  CalculateBackoffDelay_clamps_nonpositive (-3) 2 (by decide)

/- Embedding of `GetNextPendingJob` (`src/unnamed/part_001` lines 144-213).
The SQL phases are modelled separately so that the conditional-write race
(a concurrent writer changing the row between the SELECT and the UPDATE)
can be expressed: the selection phase runs on one table snapshot and the
update phase on a possibly different one. -/

/-- The lease clause `locked_by IS NULL OR datetime(locked_at) <
datetime(now, -5 minutes)` of the claim query.  A null `locked_at`
under a non-null `locked_by` compares as false in SQL. -/
def lockFree (now : Int) (j : Job) : Bool :=
  match j.lockedBy with
  | none => true
  | some _ =>
    match j.lockedAt with
    | none => false
    | some t => t + 300 < now

/-- The retry clause `next_retry_at IS NULL OR datetime(next_retry_at) <=
datetime(now)` of the claim query. -/
def retryDue (now : Int) (j : Job) : Bool :=
  match j.nextRetryAt with
  | none => true
  | some t => t ≤ now

/-- The full WHERE clause of the claim query: the row is a claimable pending
job at time `now`. -/
def eligible (now : Int) (j : Job) : Bool :=
  j.state == "pending" && lockFree now j && retryDue now j

/-- `ORDER BY created_at ASC LIMIT 1`: the first row, in insertion order,
holding the minimal `created_at`. -/
def minByCreated : List Job → Option Job
  | [] => none
  | j :: rest =>
    match minByCreated rest with
    | none => some j
    | some b => if b.createdAt < j.createdAt then some b else some j

/-- The SELECT phase of `GetNextPendingJob`. -/
def selectEligible (now : Int) (s : Store) : Option Job :=
  minByCreated (s.filter (eligible now))

/-- Effect of the conditional UPDATE on one row: rows matching
`id = ? AND state = pending` receive the lock stamps and move to
processing; every other row is untouched. -/
def claimUpdateRow (w : String) (now : Int) (jid : String) (j : Job) : Job :=
  if j.id == jid && j.state == "pending" then
    { j with lockedBy := some w, lockedAt := some now, state := StateProcessing }
  else j

/-- Rows matched by the conditional UPDATE, i.e. the `RowsAffected` count. -/
def claimRowsAffected (s : Store) (jid : String) : Nat :=
  (s.filter (fun j => j.id == jid && j.state == "pending")).length

/-- Sort key of the read-back query `ORDER BY locked_at DESC`; a null
`locked_at` sorts last. -/
def lockTime (j : Job) : Int :=
  j.lockedAt.getD 0

/-- `ORDER BY locked_at DESC LIMIT 1` over the read-back result set. -/
def maxByLockedAt : List Job → Option Job
  | [] => none
  | j :: rest =>
    match maxByLockedAt rest with
    | none => some j
    | some b => if lockTime j < lockTime b then some b else some j

/-- The read-back SELECT of `GetNextPendingJob`: the processing row most
recently locked by this worker. -/
def readBack (s : Store) (w : String) : Option Job :=
  maxByLockedAt (s.filter (fun j => j.lockedBy == some w && j.state == StateProcessing))

/-- `GetNextPendingJob` (`src/unnamed/part_001` lines 144-213).  `sSel` is
the table at the time of the SELECT, `sUpd` the table at the time of the
conditional UPDATE; a sequential call has `sSel = sUpd`.  Returns the claimed
job (none when no row is eligible or the conditional write matched no row)
and the table after the call. -/
def GetNextPendingJob (sSel sUpd : Store) (w : String) (now : Int) :
    Option Job × Store :=
  match selectEligible now sSel with
  | none => (none, sUpd)
  | some r =>
    if claimRowsAffected sUpd r.id = 0 then (none, sUpd)
    else
      let s2 := sUpd.map (claimUpdateRow w now r.id)
      (readBack s2 w, s2)

/-- `CreateJob` (`src/unnamed/part_001` lines 122-142).  The INSERT omits the
error, retry and lock columns, so they take their schema defaults; the `id`
column is the primary key, so inserting an existing id fails and changes
nothing.  Returns the error, if any, and the table after the call. -/
def CreateJob (s : Store) (j : Job) (now : Int) : Option String × Store :=
  if s.any (fun k => k.id == j.id) then
    (some "failed to create job: UNIQUE constraint failed: jobs.id", s)
  else
    (none, s ++ [{ j with createdAt := now, updatedAt := now,
                          lastError := "", nextRetryAt := none,
                          lockedBy := none, lockedAt := none }])

/- Row-level embedding of the worker attempt lifecycle
(`src/job.go` lines 151-193, `processJob`), composed from the store
operations of `src/unnamed/part_001` it invokes on the single claimed row. -/

/-- Outcome of `executeJob` for one attempt (`src/job.go` lines 195-219):
exit code zero, deadline exceeded, non-zero exit, or failure to spawn. -/
inductive ExecOutcome where
  | success (output : String)
  | timeout (output : String) (msg : String)
  | exitError (output : String) (msg : String)
  | startError (output : String) (msg : String)
deriving Repr, DecidableEq

def ExecOutcome.isSuccess : ExecOutcome → Bool
  | .success _ => true
  | _ => false

def ExecOutcome.isTimeout : ExecOutcome → Bool
  | .timeout _ _ => true
  | _ => false

def ExecOutcome.errMsg : ExecOutcome → String
  | .success _ => ""
  | .timeout _ m => m
  | .exitError _ m => m
  | .startError _ m => m

/-- `IncrementJobAttempts` (`src/unnamed/part_001` lines 228-240), effect on
the addressed row. -/
def IncrementJobAttempts (now : Int) (j : Job) : Job :=
  { j with attempts := j.attempts + 1, updatedAt := now }

/-- `UpdateJobState` (`src/unnamed/part_001` lines 214-226), effect on the
addressed row: state and error overwritten, lock columns cleared. -/
def UpdateJobState (state lastError : String) (now : Int) (j : Job) : Job :=
  { j with state := state, lastError := lastError, updatedAt := now,
           lockedBy := none, lockedAt := none }

/-- `SetNextRetryAt` (`src/unnamed/part_001` lines 241-253), effect on the
addressed row. -/
def SetNextRetryAt (t now : Int) (j : Job) : Job :=
  { j with nextRetryAt := some t, updatedAt := now }

/-- `processJob` (`src/job.go` lines 151-193), effect on the claimed row
given the outcome of the attempt: increment the attempt counter once, then
either complete, or move to dead when the fresh attempt count has reached
`max_retries`, or schedule a retry after the backoff delay and return the
row to pending.  The retry time is the current time plus the nanosecond
duration, stored at second precision (the RFC3339 format drops the
fractional second, a floor on the time line). -/
def processJob (base : ℚ) (now : Int) (j : Job) (oc : ExecOutcome) : Job :=
  let j1 := IncrementJobAttempts now j
  if oc.isSuccess then
    UpdateJobState StateCompleted "" now j1
  else
    let currentAttempts := j1.attempts
    if j.maxRetries ≤ currentAttempts then
      UpdateJobState StateDead oc.errMsg now j1
    else
      let delay := CalculateBackoffDelay currentAttempts base
      UpdateJobState StatePending oc.errMsg now
        (SetNextRetryAt (now + Int.fdiv delay 1000000000) now j1)

/- Selection lemmas for the claim query. -/

theorem minByCreated_eq_none {L : List Job} :
    minByCreated L = none ↔ L = [] := by
  cases L with
  | nil => simp [minByCreated]
  | cons j rest =>
    simp only [minByCreated]
    cases hRest : minByCreated rest with
    | none => simp
    | some b =>
      by_cases hc : b.createdAt < j.createdAt <;> simp [hc]

theorem minByCreated_mem {L : List Job} {r : Job}
    (h : minByCreated L = some r) : r ∈ L := by
  induction L generalizing r with
  | nil => simp [minByCreated] at h
  | cons j rest ih =>
    simp only [minByCreated] at h
    cases hRest : minByCreated rest with
    | none =>
      rw [hRest] at h
      simp only [Option.some.injEq] at h
      simp [h.symm]
    | some b =>
      rw [hRest] at h
      dsimp only at h
      by_cases hc : b.createdAt < j.createdAt
      · rw [if_pos hc] at h
        simp only [Option.some.injEq] at h
        exact List.mem_cons_of_mem j (ih (h ▸ hRest))
      · rw [if_neg hc] at h
        simp only [Option.some.injEq] at h
        simp [h.symm]

theorem minByCreated_le {L : List Job} {r : Job}
    (h : minByCreated L = some r) :
    ∀ k ∈ L, r.createdAt ≤ k.createdAt := by
  induction L generalizing r with
  | nil => simp [minByCreated] at h
  | cons j rest ih =>
    simp only [minByCreated] at h
    cases hRest : minByCreated rest with
    | none =>
      rw [hRest] at h
      simp only [Option.some.injEq] at h
      have hrest : rest = [] := minByCreated_eq_none.mp hRest
      subst hrest
      intro k hk
      simp only [List.mem_singleton] at hk
      simp [hk, h.symm]
    | some b =>
      rw [hRest] at h
      dsimp only at h
      intro k hk
      rcases List.mem_cons.mp hk with hkj | hkr
      · by_cases hc : b.createdAt < j.createdAt
        · rw [if_pos hc] at h
          simp only [Option.some.injEq] at h
          subst h; subst hkj
          exact le_of_lt hc
        · rw [if_neg hc] at h
          simp only [Option.some.injEq] at h
          subst h; subst hkj
          exact le_refl _
      · by_cases hc : b.createdAt < j.createdAt
        · rw [if_pos hc] at h
          simp only [Option.some.injEq] at h
          subst h
          exact ih hRest k hkr
        · rw [if_neg hc] at h
          simp only [Option.some.injEq] at h
          subst h
          exact le_trans (not_lt.mp hc) (ih hRest k hkr)

theorem maxByLockedAt_isSome {L : List Job} (h : L ≠ []) :
    (maxByLockedAt L).isSome = true := by
  cases L with
  | nil => exact absurd rfl h
  | cons j rest =>
    simp only [maxByLockedAt]
    cases maxByLockedAt rest with
    | none => simp
    | some b =>
      by_cases hc : lockTime j < lockTime b <;> simp [hc]

theorem selectEligible_spec {now : Int} {s : Store} {r : Job}
    (h : selectEligible now s = some r) :
    r ∈ s ∧ eligible now r = true ∧
      ∀ k ∈ s, eligible now k = true → r.createdAt ≤ k.createdAt := by
  have hmem := minByCreated_mem h
  have hf := List.mem_filter.mp hmem
  refine ⟨hf.1, hf.2, ?_⟩
  intro k hk he
  exact minByCreated_le h k (List.mem_filter.mpr ⟨hk, he⟩)

theorem selectEligible_isSome {now : Int} {s : Store}
    (h : ∃ k, k ∈ s ∧ eligible now k = true) :
    (selectEligible now s).isSome = true := by
  obtain ⟨k, hk, he⟩ := h
  have hmem : k ∈ s.filter (eligible now) := List.mem_filter.mpr ⟨hk, he⟩
  have hne : s.filter (eligible now) ≠ [] := List.ne_nil_of_mem hmem
  unfold selectEligible
  cases hm : minByCreated (s.filter (eligible now)) with
  | none => exact absurd (minByCreated_eq_none.mp hm) hne
  | some b => simp

theorem eligible_state_pending {now : Int} {j : Job}
    (h : eligible now j = true) : j.state = StatePending := by
  simp only [eligible, Bool.and_eq_true, beq_iff_eq] at h
  exact h.1.1

/-- C1: for every table snapshot holding at least one eligible pending job,
the claim call selects an eligible job with the smallest `created_at`; when
the selected row is still pending at the time of the conditional write (in
particular in any sequential call) exactly that row is transitioned to
processing and stamped with the worker identity and lock time, every other
row being untouched, and a job is returned; when the selected row is no
longer pending at the write, the call returns no job and leaves the table
unchanged, without retrying internally. -/
theorem GetNextPendingJob_claim_spec (sSel sUpd : Store) (w : String) (now : Int)
    (hex : ∃ k, k ∈ sSel ∧ eligible now k = true) :
    ∃ r, selectEligible now sSel = some r ∧
      r ∈ sSel ∧ eligible now r = true ∧
      (∀ k ∈ sSel, eligible now k = true → r.createdAt ≤ k.createdAt) ∧
      ((sUpd.map Job.id).Nodup →
        ∀ j ∈ sUpd, j.id = r.id → j.state = StatePending →
          (GetNextPendingJob sSel sUpd w now).2 =
            sUpd.map (fun k => if k.id = r.id
              then { k with state := StateProcessing,
                            lockedBy := some w, lockedAt := some now }
              else k) ∧
          (GetNextPendingJob sSel sUpd w now).1.isSome = true) ∧
      ((∀ j ∈ sUpd, j.id = r.id → ¬ j.state = StatePending) →
        GetNextPendingJob sSel sUpd w now = (none, sUpd)) := by
  have hs := selectEligible_isSome hex
  obtain ⟨r, hr⟩ := Option.isSome_iff_exists.mp hs
  obtain ⟨hmem, hel, hmin⟩ := selectEligible_spec hr
  refine ⟨r, hr, hmem, hel, hmin, ?_, ?_⟩
  · intro hnd j hj hid hpend
    have hjf : j ∈ sUpd.filter (fun k => k.id == r.id && k.state == "pending") := by
      refine List.mem_filter.mpr ⟨hj, ?_⟩
      simp only [StatePending] at hpend
      simp [hid, hpend]
    have haff : ¬ claimRowsAffected sUpd r.id = 0 := by
      unfold claimRowsAffected
      intro h0
      rw [List.length_eq_zero] at h0
      rw [h0] at hjf
      exact absurd hjf (List.not_mem_nil j)
    have hju : claimUpdateRow w now r.id j =
        { j with lockedBy := some w, lockedAt := some now,
                 state := StateProcessing } := by
      unfold claimUpdateRow
      rw [if_pos]
      simp only [StatePending] at hpend
      simp [hid, hpend]
    constructor
    · unfold GetNextPendingJob
      rw [hr]
      dsimp only
      rw [if_neg haff]
      apply List.map_congr_left
      intro k hk
      by_cases hkid : k.id = r.id
      · have hkj : k = j :=
          List.inj_on_of_nodup_map hnd hk hj (by rw [hkid, hid])
        subst hkj
        rw [if_pos hkid, hju]
      · rw [if_neg hkid]
        unfold claimUpdateRow
        rw [if_neg]
        simp [hkid]
    · unfold GetNextPendingJob
      rw [hr]
      dsimp only
      rw [if_neg haff]
      unfold readBack
      apply maxByLockedAt_isSome
      apply List.ne_nil_of_mem (a := claimUpdateRow w now r.id j)
      refine List.mem_filter.mpr ⟨List.mem_map_of_mem _ hj, ?_⟩
      rw [hju]
      simp
  · intro hno
    have h0 : claimRowsAffected sUpd r.id = 0 := by
      unfold claimRowsAffected
      have : sUpd.filter (fun k => k.id == r.id && k.state == "pending") = [] := by
        refine List.filter_eq_nil_iff.mpr ?_
        intro j hj
        simp only [Bool.and_eq_true, beq_iff_eq, not_and]
        intro hid hpend
        exact hno j hj hid (by simpa [StatePending] using hpend)
      rw [this]
      rfl
    unfold GetNextPendingJob
    rw [hr]
    dsimp only
    rw [if_pos h0]

/-- A concrete eligible pending job used by the witnesses. -/
def jobA : Job :=
  { id := "a", command := "echo hi", state := "pending", attempts := 0,
    maxRetries := 3, createdAt := 10, updatedAt := 10, lastError := "",
    nextRetryAt := none, lockedBy := none, lockedAt := none }

theorem GetNextPendingJob_claim_spec_witness :
    (GetNextPendingJob [jobA] [jobA] "worker-1" 100).1.isSome = true ∧
    (GetNextPendingJob [jobA] [jobA] "worker-1" 100).2 =
      [{ jobA with state := StateProcessing,
                   lockedBy := some "worker-1", lockedAt := some 100 }] := by
  obtain ⟨r, hsel, hmem, hel, hmin, hseq, hzero⟩ :=
    GetNextPendingJob_claim_spec [jobA] [jobA] "worker-1" 100
      ⟨jobA, by decide, by decide⟩
  have hr : r = jobA := by
    have hconcrete : selectEligible 100 [jobA] = some jobA := by decide
    exact Option.some.inj (hsel.symm.trans hconcrete)
  subst hr
  obtain ⟨hst, hsome⟩ := hseq (by decide) jobA (by decide) rfl rfl
  refine ⟨hsome, ?_⟩
  rw [hst]
  decide

/-- A processing job abandoned by a crashed worker: its lease expired long
ago (locked at time 0, observed at time 1000, window 300). -/
def staleJob : Job :=
  { id := "s1", command := "sleep 600", state := StateProcessing,
    attempts := 1, maxRetries := 3, createdAt := 0, updatedAt := 0,
    lastError := "", nextRetryAt := none, lockedBy := some "worker-1",
    lockedAt := some 0 }

/-- C5: the claim query filters on `state = pending`, so a processing job
whose lock lease has long expired is never selected: another worker observes
no job and the table is unchanged, although the lease window has passed.
The stale-lock clause of the query can never reclaim an abandoned
processing job. -/
theorem stale_processing_job_not_reclaimed :
    staleJob.lockedAt.getD 0 + 300 < 1000 ∧
    staleJob.state = StateProcessing ∧
    GetNextPendingJob [staleJob] [staleJob] "worker-2" 1000 =
      (none, [staleJob]) := by
  decide

/-- C8: creating a job whose id is already present fails and leaves the
table, in particular the existing row, exactly as it was. -/
theorem CreateJob_duplicate_id (s : Store) (j k : Job) (now : Int)
    (hk : k ∈ s) (hid : k.id = j.id) :
    (CreateJob s j now).1.isSome = true ∧ (CreateJob s j now).2 = s := by
  have hdup : s.any (fun m => m.id == j.id) = true :=
    List.any_eq_true.mpr ⟨k, hk, by simp [hid]⟩
  unfold CreateJob
  rw [if_pos hdup]
  exact ⟨rfl, rfl⟩

/-- A second submission reusing the id of `jobA`. -/
def jobAdup : Job :=
  { jobA with command := "echo other" }

theorem CreateJob_duplicate_id_witness :
    (CreateJob [jobA] jobAdup 50).1.isSome = true ∧
    (CreateJob [jobA] jobAdup 50).2 = [jobA] :=
  CreateJob_duplicate_id [jobA] jobAdup jobA 50 (by decide) rfl

/-- C2: one executed attempt increments the attempt counter exactly once,
and the row moves to the dead state exactly when the attempt failed and the
fresh counter equals `max_retries`.  The hypothesis `attempts < max_retries`
holds of every claimable job: rows are created with attempts 0 and a failing
attempt returns a row to pending only under this very condition. -/
theorem processJob_attempts_dead_iff (base : ℚ) (now : Int) (j : Job)
    (oc : ExecOutcome) (hreach : j.attempts < j.maxRetries) :
    (processJob base now j oc).attempts = j.attempts + 1 ∧
    ((processJob base now j oc).state = StateDead ↔
      oc.isSuccess = false ∧ j.attempts + 1 = j.maxRetries) := by
  by_cases hS : oc.isSuccess = true
  · constructor
    · simp [processJob, hS, UpdateJobState, IncrementJobAttempts]
    · simp [processJob, hS, UpdateJobState, IncrementJobAttempts,
            StateCompleted, StateDead]
  · have hS' : oc.isSuccess = false := by
      cases h : oc.isSuccess
      · rfl
      · exact absurd h hS
    by_cases hD : j.maxRetries ≤ j.attempts + 1
    · constructor
      · simp [processJob, hS', hD, UpdateJobState, IncrementJobAttempts]
      · simp [processJob, hS', hD, UpdateJobState, IncrementJobAttempts]
        omega
    · constructor
      · simp [processJob, hS', hD, UpdateJobState, IncrementJobAttempts,
              SetNextRetryAt]
      · simp [processJob, hS', hD, UpdateJobState, IncrementJobAttempts,
              SetNextRetryAt, StatePending, StateDead]
        omega

/-- The row shape of a freshly claimed job, used by the witnesses. -/
def claimedJobA : Job :=
  { jobA with state := StateProcessing, attempts := 1,
              lockedBy := some "worker-1", lockedAt := some 5,
              maxRetries := 2 }

theorem processJob_attempts_dead_iff_witness :
    (processJob 2 7 claimedJobA (.exitError "" "command exited with code 1: ")).attempts = 2 ∧
    (processJob 2 7 claimedJobA (.exitError "" "command exited with code 1: ")).state = StateDead := by
  have h := processJob_attempts_dead_iff 2 7 claimedJobA
    (.exitError "" "command exited with code 1: ") (by decide)
  exact ⟨h.1, h.2.mpr ⟨rfl, by decide⟩⟩

/-- C4: the source constants for the three terminal states are capitalized
(`src/job.go` lines 10-12), so a successful attempt stores the state
"Completed", which is not one of the five lowercase enum values that the
rest of the code (the list-command validation and the test suite) expects.
Shown at a concrete claimed job on a successful attempt, and directly on
the three constants. -/
theorem terminal_states_not_lowercase :
    (processJob 2 7 claimedJobA (.success "hi")).state = "Completed" ∧
    ((["pending", "processing", "completed", "failed", "dead"] : List String).contains
      (processJob 2 7 claimedJobA (.success "hi")).state) = false ∧
    StateCompleted ≠ "completed" ∧ StateFailed ≠ "failed" ∧
    StateDead ≠ "dead" := by
  decide

/-- One worker cycle repeated on a single always-failing job: claim the row
when it is eligible, run `processJob` with a failing outcome, collect the
backoff delay whenever a retry is scheduled, and advance the clock to the
scheduled retry time.  Fuel bounds the number of polls. -/
def workerFailCycles (base : ℚ) (w : String) :
    Nat → Int → Job → List Int × Job
  | 0, _, j => ([], j)
  | fuel + 1, now, j =>
    if eligible now j then
      let jc := claimUpdateRow w now j.id j
      let j2 := processJob base now jc (.exitError "" "command exited with code 1: ")
      if j2.state == StatePending then
        let d := j2.nextRetryAt.getD now - now
        let r := workerFailCycles base w fuel (now + d) j2
        (d :: r.1, r.2)
      else ([], j2)
    else if j.state == StatePending then
      workerFailCycles base w fuel (now + 1) j
    else ([], j)

/-- The job of spec scenario B: always-failing command, `max_retries` 2. -/
def jobB : Job :=
  { id := "b", command := "false", state := "pending", attempts := 0,
    maxRetries := 2, createdAt := 0, updatedAt := 0, lastError := "",
    nextRetryAt := none, lockedBy := none, lockedAt := none }

/-- C7 counterexample: with `max_retries` 2 and base 2 the code schedules a
single retry delay of 2 seconds, never a 4-second one — the second failing
attempt has a fresh counter of 2, which already reaches `max_retries`, so
the job goes to dead directly. -/
theorem scenarioB_delays_counterexample :
    ¬ ((workerFailCycles 2 "worker-1" 6 1 jobB).1 = [2, 4]) := by
  decide

/-- C7 amended: for a job with `max_retries` 2 failing every attempt under
base 2, the worker performs exactly two failing attempts; the first
schedules a retry after 2 seconds, the second reaches `max_retries` and
moves the job to dead, so the delay list is exactly [2] and the final row is
dead with 2 attempts. -/
theorem scenarioB_actual_behavior :
    (workerFailCycles 2 "worker-1" 6 1 jobB).1 = [2] ∧
    (workerFailCycles 2 "worker-1" 6 1 jobB).2.state = StateDead ∧
    (workerFailCycles 2 "worker-1" 6 1 jobB).2.attempts = 2 := by
  decide

/- Embedding of the metrics store (`src/metrics.go`). -/

/-- One row of the `job_executions` table; `success` and `timeout` are the
0/1 integers the source stores. -/
structure ExecutionRecord where
  jobId : String
  startedAt : Int
  completedAt : Int
  durationMs : Int
  success : Int
  timeout : Int
  error : String
deriving Repr, DecidableEq

/-- `IncrementMetric` (`src/metrics.go` lines 9-20): upsert adding 1 to the
counter under the key, creating it at 1 when absent. -/
def IncrementMetric : List (String × Int) → String → List (String × Int)
  | [], key => [(key, 1)]
  | (k, v) :: rest, key =>
    if k == key then (k, v + 1) :: rest
    else (k, v) :: IncrementMetric rest key

/-- `GetMetric` (`src/metrics.go` lines 22-32): a missing key reads as 0. -/
def GetMetric : List (String × Int) → String → Int
  | [], _ => 0
  | (k, v) :: rest, key => if k == key then v else GetMetric rest key

/-- `RecordJobExecution` (`src/metrics.go` lines 53-75): append one row with
the millisecond duration (0 when the completion time is the zero time) and
the boolean flags stored as 0/1. -/
def RecordJobExecution (recs : List ExecutionRecord) (jobId : String)
    (startedAt completedAt : Int) (success timeout : Bool)
    (errMsg : String) : List ExecutionRecord :=
  let durationMs := if completedAt = 0 then 0 else (completedAt - startedAt) * 1000
  recs ++ [{ jobId := jobId, startedAt := startedAt, completedAt := completedAt,
             durationMs := durationMs,
             success := if success then 1 else 0,
             timeout := if timeout then 1 else 0, error := errMsg }]

/-- The metrics side of the durable state: the counter table and the
execution history. -/
structure MetricsState where
  counters : List (String × Int)
  executions : List ExecutionRecord
deriving Repr, DecidableEq

/-- Modelled from the spec: the metrics and execution-record side of the
worker attempt lifecycle (spec 4.4).  The revision of `processJob` that
invokes `IncrementMetric` and `RecordJobExecution` is not among the provided
sources — they contain only these callees, their read side and the test
suite exercising the counters — so the orchestration is taken from the
spec: every attempt counts once toward jobs_processed; a success counts
toward jobs_succeeded and appends a successful record; a failure counts
toward jobs_failed, additionally toward jobs_timeout when the outcome was a
timeout, and appends a failed record carrying the timeout flag and the
error message. -/
def recordAttempt (m : MetricsState) (jobId : String)
    (startedAt completedAt : Int) (oc : ExecOutcome) : MetricsState :=
  if oc.isSuccess then
    { counters := IncrementMetric (IncrementMetric m.counters "jobs_processed")
        "jobs_succeeded",
      executions := RecordJobExecution m.executions jobId startedAt completedAt
        true false "" }
  else
    let c1 := IncrementMetric m.counters "jobs_processed"
    let c2 := IncrementMetric c1 "jobs_failed"
    let c3 := if oc.isTimeout then IncrementMetric c2 "jobs_timeout" else c2
    { counters := c3,
      executions := RecordJobExecution m.executions jobId startedAt completedAt
        false oc.isTimeout oc.errMsg }

theorem GetMetric_IncrementMetric (c : List (String × Int)) (key qk : String) :
    GetMetric (IncrementMetric c key) qk =
      GetMetric c qk + (if qk = key then 1 else 0) := by
  induction c with
  | nil =>
    by_cases h : qk = key
    · simp [IncrementMetric, GetMetric, h]
    · simp [IncrementMetric, GetMetric, h, Ne.symm h]
  | cons p rest ih =>
    rcases p with ⟨pk, pv⟩
    by_cases h1 : pk = key
    · subst h1
      by_cases h2 : qk = pk
      · subst h2
        simp [IncrementMetric, GetMetric]
      · simp [IncrementMetric, GetMetric, h2, Ne.symm h2]
    · by_cases h2 : pk = qk
      · subst h2
        simp [IncrementMetric, GetMetric, h1]
      · simp [IncrementMetric, GetMetric, h1, h2, ih]

/-- C3: every executed attempt adds exactly 1 to jobs_processed; a
successful attempt additionally adds 1 to jobs_succeeded and appends a
record with success 1; a failing attempt additionally adds 1 to
jobs_failed (and to jobs_timeout exactly when the outcome was a timeout)
and appends a record with success 0, the timeout flag set exactly for a
timeout, and the error message. -/
theorem recordAttempt_metrics_spec (m : MetricsState) (jobId : String)
    (startedAt completedAt : Int) (oc : ExecOutcome) :
    GetMetric (recordAttempt m jobId startedAt completedAt oc).counters
        "jobs_processed" = GetMetric m.counters "jobs_processed" + 1 ∧
    GetMetric (recordAttempt m jobId startedAt completedAt oc).counters
        "jobs_succeeded" = GetMetric m.counters "jobs_succeeded"
          + (if oc.isSuccess then 1 else 0) ∧
    GetMetric (recordAttempt m jobId startedAt completedAt oc).counters
        "jobs_failed" = GetMetric m.counters "jobs_failed"
          + (if oc.isSuccess then 0 else 1) ∧
    GetMetric (recordAttempt m jobId startedAt completedAt oc).counters
        "jobs_timeout" = GetMetric m.counters "jobs_timeout"
          + (if oc.isTimeout then 1 else 0) ∧
    (recordAttempt m jobId startedAt completedAt oc).executions =
      m.executions ++
        [{ jobId := jobId, startedAt := startedAt, completedAt := completedAt,
           durationMs := if completedAt = 0 then 0
                         else (completedAt - startedAt) * 1000,
           success := if oc.isSuccess then 1 else 0,
           timeout := if oc.isTimeout then 1 else 0,
           error := oc.errMsg }] := by
  cases oc with
  | success out =>
    simp [recordAttempt, RecordJobExecution, GetMetric_IncrementMetric,
          ExecOutcome.isSuccess, ExecOutcome.isTimeout, ExecOutcome.errMsg]
  | timeout out msg =>
    simp [recordAttempt, RecordJobExecution, GetMetric_IncrementMetric,
          ExecOutcome.isSuccess, ExecOutcome.isTimeout, ExecOutcome.errMsg]
  | exitError out msg =>
    simp [recordAttempt, RecordJobExecution, GetMetric_IncrementMetric,
          ExecOutcome.isSuccess, ExecOutcome.isTimeout, ExecOutcome.errMsg]
  | startError out msg =>
    simp [recordAttempt, RecordJobExecution, GetMetric_IncrementMetric,
          ExecOutcome.isSuccess, ExecOutcome.isTimeout, ExecOutcome.errMsg]
